import Mathlib

/-!
Shallow embedding of the change-detection core of
`src/campaign_optimizer_app_v4.py` (functions `calculate_changes` and
`analyze_keywords`), with numeric cell values modelled as exact rationals.

A cell of one of the three metric columns (CPA, CTR, Cost) is `Option Val`:
`some (Val.num q)` is a parsed number, `some Val.nan` is a missing cell
(pandas stores it as float NaN, which propagates through arithmetic and
makes every comparison `False` without raising), and `none` is a
non-numeric string cell, whose use in arithmetic raises `TypeError` and
sends the row into the `except: continue` branch.

The descending sorts (`sort_values(..., ascending=False)`) follow pandas'
`nargsort`: rows with a NaN key are masked out first and appended at the end
in original order (`na_position="last"`); the remaining values and their
indices are reversed, argsorted ascending, and the indexer reversed again.
numpy's sort is stable on the small arrays at hand (insertion sort), so the
double reversal preserves the original order of tied rows.  This is modelled
as `reverse`, stable `mergeSort`, `reverse`.

The two slider thresholds `cpa_threshold` / `ctr_threshold` are passed as
parameters.
-/

namespace CampaignOptimizer

/-- A float cell value: an exact rational, or IEEE NaN (a missing cell). -/
inductive Val where
  | num (q : ℚ)
  | nan
deriving DecidableEq, Repr

/-- Float subtraction: NaN propagates. -/
def Val.sub : Val → Val → Val
  | Val.num x, Val.num y => Val.num (x - y)
  | _, _ => Val.nan

/-- Python `abs` on a float value: `abs(nan)` is `nan`. -/
def Val.abs : Val → Val
  | Val.num q => Val.num |q|
  | Val.nan => Val.nan

/-- `v < c` on a float value: any comparison with NaN is `False`. -/
def Val.ltB : Val → ℚ → Bool
  | Val.num q, c => decide (q < c)
  | Val.nan, _ => false

/-- `v >= c` on a float value: any comparison with NaN is `False`. -/
def Val.geB : Val → ℚ → Bool
  | Val.num q, c => decide (q ≥ c)
  | Val.nan, _ => false

/-- `v > c` on a float value: any comparison with NaN is `False`. -/
def Val.gtB : Val → ℚ → Bool
  | Val.num q, c => decide (q > c)
  | Val.nan, _ => false

/-- Whether a float value is an actual number (`isna` is its negation). -/
def Val.isNum : Val → Bool
  | Val.num _ => true
  | Val.nan => false

/-- The sort key `abs` of a numeric value (only ever applied to rows that
passed the NaN mask; the NaN case is arbitrary). -/
def Val.absQ : Val → ℚ
  | Val.num q => |q|
  | Val.nan => 0

/-- One row of one period's dataset: the grouping-key cell (`Ad Group` or
`Campaign`, whichever the run groups by), the optional `Campaign` cell, the
three metric cells, the `Conversions` and `Impressions` cells (on the
keyword path a missing cell only ever meets a comparison, which a NaN fails,
so missing is conflated with absent there), and the `Keyword` cell. -/
structure Row where
  key : String
  campaign : Option String
  cpa : Option Val
  ctr : Option Val
  cost : Option Val
  conversions : Option ℚ
  impressions : Option ℚ
  keyword : String
deriving DecidableEq, Repr

/-- `pd.merge(curr_df, prev_df, on=level_col)`: inner join on the grouping
key, pairing every current row with every previous row that has an equal
key, in left-row order. -/
def mergeRows (curr prev : List Row) : List (Row × Row) :=
  curr.flatMap fun c => (prev.filter fun p => p.key == c.key).map fun p => (c, p)

/-- `((curr - prev) / prev) * 100 if prev else 0` on actual numbers: the
percentage change with the zero-previous-value guard (Python truthiness:
`0.0` is falsy). -/
def pctChange (curr prev : ℚ) : ℚ :=
  if prev = 0 then 0 else ((curr - prev) / prev) * 100

/-- `((curr - prev) / prev) * 100 if prev else 0` on float cells.  The
condition is evaluated first: a zero previous value is falsy, so the result
is `0` and the current cell is never touched.  NaN is truthy and propagates
through the arithmetic; a non-numeric string is truthy and the subtraction
raises (`none`). -/
def pctChangeF (curr prev : Option Val) : Option Val :=
  match prev with
  | none => none
  | some Val.nan =>
    match curr with
    | none => none
    | some _ => some Val.nan
  | some (Val.num q) =>
    if q = 0 then some (Val.num 0)
    else
      match curr with
      | none => none
      | some Val.nan => some Val.nan
      | some (Val.num c) => some (Val.num (((c - q) / q) * 100))

/-- The three per-row percentage changes (CPA, CTR, Cost), in the order the
source computes them; `none` when one of them raises, modelling the
exception that skips the row. -/
def rowDeltas (pr : Row × Row) : Option (Val × Val × Val) := do
  let cpaChange ← pctChangeF pr.1.cpa pr.2.cpa
  let ctrChange ← pctChangeF pr.1.ctr pr.2.ctr
  let spendChange ← pctChangeF pr.1.cost pr.2.cost
  pure (cpaChange, ctrChange, spendChange)

/-- `abs(spend_change - cpa_change) < 5 and abs(spend_change - ctr_change) < 5`
on actual numbers: the suppression condition that makes the loop
`continue`. -/
def suppressed (cpaChange ctrChange spendChange : ℚ) : Bool :=
  decide (|spendChange - cpaChange| < 5) && decide (|spendChange - ctrChange| < 5)

/-- The suppression condition on float values: a NaN in either difference
makes that comparison `False`. -/
def suppressedV (cpaChange ctrChange spendChange : Val) : Bool :=
  ((spendChange.sub cpaChange).abs.ltB 5) && ((spendChange.sub ctrChange).abs.ltB 5)

/-- Python 3 `round(q, 2)` on an exact value: round half to even at the
second decimal place. -/
def pyRoundInt (q : ℚ) : ℤ :=
  let f := ⌊q⌋
  if q - f < 1/2 then f
  else if 1/2 < q - f then f + 1
  else if f % 2 = 0 then f else f + 1

/-- Rounding to two decimal places, as applied to every change stored in an
alert or mover dict. -/
def round2 (q : ℚ) : ℚ := (pyRoundInt (q * 100) : ℚ) / 100

/-- `round(v, 2)` on a float value: `round(nan, 2)` is `nan`. -/
def roundV2 : Val → Val
  | Val.num q => Val.num (round2 q)
  | Val.nan => Val.nan

/-- One dict appended to `alerts`: grouping key, `Campaign_curr` value (empty
string when absent), and the three rounded changes (a change can be NaN). -/
structure AlertRecord where
  key : String
  campaign : String
  cpaChange : Val
  ctrChange : Val
  spendChange : Val
deriving DecidableEq, Repr

/-- One dict appended to `movers`: grouping key and the two rounded changes
(a change can be NaN). -/
structure MoverRecord where
  key : String
  cpaChange : Val
  ctrChange : Val
deriving DecidableEq, Repr

/-- The body of the row loop of `calculate_changes`: the alert dicts and the
mover dicts this one merged row appends (each list has length 0 or 1). -/
def processRow (cpaThreshold ctrThreshold : ℚ) (pr : Row × Row) :
    List AlertRecord × List MoverRecord :=
  match rowDeltas pr with
  | none => ([], [])
  | some (cpaChange, ctrChange, spendChange) =>
    if suppressedV cpaChange ctrChange spendChange then ([], [])
    else
      let alerts :=
        if cpaChange.abs.geB cpaThreshold || ctrChange.abs.geB ctrThreshold then
          [{ key := pr.1.key, campaign := pr.1.campaign.getD "",
             cpaChange := roundV2 cpaChange, ctrChange := roundV2 ctrChange,
             spendChange := roundV2 spendChange }]
        else []
      let movers :=
        if cpaChange.abs.gtB 0.2 || ctrChange.abs.gtB 0.2 then
          [{ key := pr.1.key, cpaChange := roundV2 cpaChange,
             ctrChange := roundV2 ctrChange }]
        else []
      (alerts, movers)

/-- All alert dicts appended over the merged rows, in row order. -/
def pairedAlerts (cpaThreshold ctrThreshold : ℚ) (merged : List (Row × Row)) :
    List AlertRecord :=
  merged.flatMap fun pr => (processRow cpaThreshold ctrThreshold pr).1

/-- All mover dicts appended over the merged rows, in row order. -/
def pairedMovers (cpaThreshold ctrThreshold : ℚ) (merged : List (Row × Row)) :
    List MoverRecord :=
  merged.flatMap fun pr => (processRow cpaThreshold ctrThreshold pr).2

/-- The comparison `sort_values(by="CPA Change (%)", key=abs)` sorts on,
restricted to the unmasked (numeric-keyed) rows. -/
def moverLe (a b : MoverRecord) : Bool :=
  decide (a.cpaChange.absQ ≤ b.cpaChange.absQ)

/-- `movers_df.sort_values(by="CPA Change (%)", key=abs, ascending=False)`
following pandas `nargsort`: NaN-keyed rows are masked out and appended last
in original order; the rest is reversed, stably sorted ascending, and
reversed again, which preserves the original order of tied rows. -/
def rankedMovers (movers : List MoverRecord) : List MoverRecord :=
  (((movers.filter fun m => m.cpaChange.isNum).reverse.mergeSort
      moverLe).reverse) ++
    (movers.filter fun m => !m.cpaChange.isNum)

/-- The ranked movers cut to `head(5)` when `movers_df` is nonempty, else an
empty frame. -/
def topMovers (movers : List MoverRecord) : List MoverRecord :=
  if movers.isEmpty then [] else (rankedMovers movers).take 5

/-- `calculate_changes(curr_df, prev_df, level)` under thresholds
`cpa_threshold`, `ctr_threshold`: the alert list and the ranked top movers. -/
def calculate_changes (cpaThreshold ctrThreshold : ℚ) (curr prev : List Row) :
    List AlertRecord × List MoverRecord :=
  let merged := mergeRows curr prev
  (pairedAlerts cpaThreshold ctrThreshold merged,
   topMovers (pairedMovers cpaThreshold ctrThreshold merged))

/-- A period's dataset together with whether its `Keyword` column exists. -/
structure Dataset where
  hasKeywordColumn : Bool
  rows : List Row
deriving Repr

/-- `df[df["Impressions"] >= 100]`: rows whose impression cell is numeric and
at least 100 (a missing cell compares `False` and is dropped). -/
def qualifyingRows (rows : List Row) : List Row :=
  rows.filter fun r =>
    match r.impressions with
    | some v => decide (v ≥ 100)
    | none => false

/-- The comparison `sort_values(by="Conversions")` sorts on, over rows whose
conversion cell is numeric. -/
def convLe (a b : Row) : Bool :=
  decide (a.conversions.getD 0 ≤ b.conversions.getD 0)

/-- `sort_values(by="Conversions", ascending=False)` following pandas
`nargsort`: rows with a missing conversion cell are masked out and kept last
in original order (`na_position="last"`); the rest is reversed, stably
sorted ascending, and reversed again (ties keep original order). -/
def sortByConversionsDesc (rows : List Row) : List Row :=
  (((rows.filter fun r => r.conversions.isSome).reverse.mergeSort
      convLe).reverse) ++
    (rows.filter fun r => r.conversions.isNone)

/-- `keyword_data.head(5)["Keyword"].tolist()` (empty when the `Keyword`
column is absent). -/
def keywordTop5 (df : Dataset) : List String :=
  if df.hasKeywordColumn then
    ((sortByConversionsDesc (qualifyingRows df.rows)).take 5).map (·.keyword)
  else []

/-- `keyword_data.tail(5)["Keyword"].tolist()` (empty when the `Keyword`
column is absent). -/
def keywordBottom5 (df : Dataset) : List String :=
  if df.hasKeywordColumn then
    let sorted := sortByConversionsDesc (qualifyingRows df.rows)
    (sorted.drop (sorted.length - 5)).map (·.keyword)
  else []

/-- `analyze_keywords(df)`: the joined insight text, `""` when the `Keyword`
column is absent or no row qualifies. -/
def analyze_keywords (df : Dataset) : String :=
  if !df.hasKeywordColumn then ""
  else
    let keywordData := qualifyingRows df.rows
    let insights :=
      if !keywordData.isEmpty then
        ["Top performing keywords:"] ++ keywordTop5 df ++
          ["Lowest performing keywords:"] ++ keywordBottom5 df
      else []
    String.intercalate "\n" insights

/-- Conversion cell of a row as an element of `WithBot ℚ`: a missing cell is
`⊥`, matching pandas sorting it after every numeric value. -/
def convKey (r : Row) : WithBot ℚ :=
  match r.conversions with
  | some v => (v : WithBot ℚ)
  | none => ⊥

/-- Ranking key of a mover as an element of `WithBot ℚ`: `|cpa_change|`, or
`⊥` for a NaN change, matching pandas sorting it after every numeric key. -/
def moverKeyW (m : MoverRecord) : WithBot ℚ :=
  match m.cpaChange with
  | Val.num q => ((|q| : ℚ) : WithBot ℚ)
  | Val.nan => ⊥

/-! ### Concrete sample rows used by witnesses and counterexamples -/

/-- Current-period row whose three changes against `rowSuppPrev` are all +3%
(a suppressed row). -/
def rowSuppCurr : Row :=
  { key := "A", campaign := none, cpa := some (Val.num 10.3),
    ctr := some (Val.num 10.3), cost := some (Val.num 103),
    conversions := none, impressions := none, keyword := "" }

/-- Previous-period partner of `rowSuppCurr`. -/
def rowSuppPrev : Row :=
  { key := "A", campaign := none, cpa := some (Val.num 10),
    ctr := some (Val.num 10), cost := some (Val.num 100),
    conversions := none, impressions := none, keyword := "" }

/-- Current-period row of the spec's "Shoes" scenario: CPA 10→12 (+20%),
CTR 2→2 (0%), Cost 100→120 (+20%) against `rowAlertPrev`. -/
def rowAlertCurr : Row :=
  { key := "Shoes", campaign := none, cpa := some (Val.num 12),
    ctr := some (Val.num 2), cost := some (Val.num 120),
    conversions := none, impressions := none, keyword := "" }

/-- Previous-period partner of `rowAlertCurr`. -/
def rowAlertPrev : Row :=
  { key := "Shoes", campaign := none, cpa := some (Val.num 10),
    ctr := some (Val.num 2), cost := some (Val.num 100),
    conversions := none, impressions := none, keyword := "" }

/-- A row whose CPA cell is a non-numeric string (its use raises). -/
def rowBadCurr : Row :=
  { key := "B", campaign := none, cpa := none, ctr := some (Val.num 2),
    cost := some (Val.num 120), conversions := none, impressions := none,
    keyword := "" }

/-- A row whose CPA cell is missing (NaN) while CTR doubled (2→4) and Cost
is flat, paired with `rowNanPrev`. -/
def rowNanCurr : Row :=
  { key := "N", campaign := none, cpa := some Val.nan,
    ctr := some (Val.num 4), cost := some (Val.num 100),
    conversions := none, impressions := none, keyword := "" }

/-- Previous-period partner of `rowNanCurr`. -/
def rowNanPrev : Row :=
  { key := "N", campaign := none, cpa := some (Val.num 10),
    ctr := some (Val.num 2), cost := some (Val.num 100),
    conversions := none, impressions := none, keyword := "" }

/-- First current-period row with key "A" for the join witness. -/
def joinCurr1 : Row :=
  { key := "A", campaign := none, cpa := some (Val.num 1),
    ctr := some (Val.num 1), cost := some (Val.num 1),
    conversions := none, impressions := none, keyword := "" }

/-- Second current-period row with key "A" for the join witness. -/
def joinCurr2 : Row :=
  { key := "A", campaign := none, cpa := some (Val.num 2),
    ctr := some (Val.num 2), cost := some (Val.num 2),
    conversions := none, impressions := none, keyword := "" }

/-- Previous-period row with key "A" for the join witness. -/
def joinPrev1 : Row :=
  { key := "A", campaign := none, cpa := some (Val.num 3),
    ctr := some (Val.num 3), cost := some (Val.num 3),
    conversions := none, impressions := none, keyword := "" }

/-- Two movers tied on `|cpa_change|`, first in row order. -/
def tieA : MoverRecord :=
  { key := "A", cpaChange := Val.num 10, ctrChange := Val.num 0 }

/-- Two movers tied on `|cpa_change|`, second in row order. -/
def tieB : MoverRecord :=
  { key := "B", cpaChange := Val.num 10, ctrChange := Val.num 0 }

/-- Keyword row with few conversions and enough impressions. -/
def kwRowLow : Row :=
  { key := "K", campaign := none, cpa := none, ctr := none, cost := none,
    conversions := some 1, impressions := some 150, keyword := "low" }

/-- Keyword row with many conversions and enough impressions. -/
def kwRowHigh : Row :=
  { key := "K", campaign := none, cpa := none, ctr := none, cost := none,
    conversions := some 9, impressions := some 200, keyword := "high" }

/-- A current-period dataset with a Keyword column. -/
def kwDf : Dataset :=
  { hasKeywordColumn := true, rows := [kwRowHigh, kwRowLow] }

/-- The same rows without a Keyword column. -/
def kwDfNoCol : Dataset :=
  { hasKeywordColumn := false, rows := [kwRowHigh, kwRowLow] }

/-! ### Bridging lemmas between float cells and their numeric content -/

/-- On two numeric cells the float change is the numeric change. -/
theorem pctChangeF_num (c p : ℚ) :
    pctChangeF (some (Val.num c)) (some (Val.num p)) =
      some (Val.num (pctChange c p)) := by
  by_cases hp : p = 0 <;> simp [pctChangeF, pctChange, hp]

/-- On numeric changes the float suppression test is the numeric one. -/
theorem suppressedV_num (c t s : ℚ) :
    suppressedV (Val.num c) (Val.num t) (Val.num s) = suppressed c t s := by
  simp [suppressedV, suppressed, Val.sub, Val.abs, Val.ltB]

/-- The deltas of the suppressed sample pair are (+3, +3, +3). -/
theorem rowDeltas_supp :
    rowDeltas (rowSuppCurr, rowSuppPrev) =
      some (Val.num 3, Val.num 3, Val.num 3) := by
  have h1 : pctChange (10.3 : ℚ) 10 = 3 := by norm_num [pctChange]
  have h2 : pctChange (103 : ℚ) 100 = 3 := by norm_num [pctChange]
  simp [rowDeltas, rowSuppCurr, rowSuppPrev, pctChangeF_num, h1, h2]

/-- The deltas of the "Shoes" sample pair are (+20, 0, +20). -/
theorem rowDeltas_alert :
    rowDeltas (rowAlertCurr, rowAlertPrev) =
      some (Val.num 20, Val.num 0, Val.num 20) := by
  have h1 : pctChange (12 : ℚ) 10 = 20 := by norm_num [pctChange]
  have h2 : pctChange (2 : ℚ) 2 = 0 := by norm_num [pctChange]
  have h3 : pctChange (120 : ℚ) 100 = 20 := by norm_num [pctChange]
  simp [rowDeltas, rowAlertCurr, rowAlertPrev, pctChangeF_num, h1, h2, h3]

/-! ### Claim theorems -/

/-- C1 counterexample: the suppressed sample pair has `|cpa_change| = 3 > 0.2`,
yet the suppression `continue` skips mover emission too, so no MoverRecord is
emitted — mover emission is not independent of the suppression rule. -/
theorem C1_counterexample :
    rowDeltas (rowSuppCurr, rowSuppPrev) =
      some (Val.num 3, Val.num 3, Val.num 3) ∧
    suppressed 3 3 3 = true ∧ (0.2 : ℚ) < |(3 : ℚ)| ∧
    (processRow 15 15 (rowSuppCurr, rowSuppPrev)).2 = [] := by
  have hs : suppressed 3 3 3 = true := by norm_num [suppressed]
  have hsV : suppressedV (Val.num 3) (Val.num 3) (Val.num 3) = true := by
    rw [suppressedV_num]; exact hs
  exact ⟨rowDeltas_supp, hs, by norm_num,
    by simp [processRow, rowDeltas_supp, hsV]⟩

/-- C1 (amended): mover emission is gated by the suppression rule — a
suppressed row emits no MoverRecord; a non-suppressed paired row with numeric
metrics emits a MoverRecord iff `|cpa_change| > 0.2` or `|ctr_change| > 0.2`. -/
theorem C1_mover_gated_by_suppression (cpaThreshold ctrThreshold : ℚ)
    (pr : Row × Row) (c t s : ℚ)
    (hd : rowDeltas pr = some (Val.num c, Val.num t, Val.num s)) :
    (suppressed c t s = true →
      (processRow cpaThreshold ctrThreshold pr).2 = []) ∧
    (suppressed c t s = false →
      ((processRow cpaThreshold ctrThreshold pr).2 ≠ [] ↔
        ((0.2 : ℚ) < |c| ∨ (0.2 : ℚ) < |t|))) := by
  constructor
  · intro hs
    have hsV : suppressedV (Val.num c) (Val.num t) (Val.num s) = true := by
      rw [suppressedV_num]; exact hs
    simp [processRow, hd, hsV]
  · intro hs
    have hsV : suppressedV (Val.num c) (Val.num t) (Val.num s) = false := by
      rw [suppressedV_num]; exact hs
    by_cases hm : (0.2 : ℚ) < |c| ∨ (0.2 : ℚ) < |t|
    · have hmc : ((Val.num c).abs.gtB 0.2 || (Val.num t).abs.gtB 0.2) = true := by
        simp only [Val.abs, Val.gtB, gt_iff_lt, Bool.or_eq_true,
          decide_eq_true_eq]
        exact hm
      simp [processRow, hd, hsV, hmc, hm]
    · have hmc : ((Val.num c).abs.gtB 0.2 || (Val.num t).abs.gtB 0.2) = false := by
        simp only [Val.abs, Val.gtB, gt_iff_lt, Bool.or_eq_false_iff,
          decide_eq_false_iff_not, not_lt]
        exact ⟨le_of_not_lt (not_or.mp hm).1, le_of_not_lt (not_or.mp hm).2⟩
      simp [processRow, hd, hsV, hmc, hm]

/-- C1 witness: the non-suppressed "Shoes" pair (deltas (+20, 0, +20)) emits
a MoverRecord since `|20| > 0.2`. -/
theorem C1_witness :
    suppressed 20 0 20 = false ∧
    (processRow 15 15 (rowAlertCurr, rowAlertPrev)).2 ≠ [] := by
  have hs : suppressed 20 0 20 = false := by norm_num [suppressed]
  exact ⟨hs,
    ((C1_mover_gated_by_suppression 15 15 (rowAlertCurr, rowAlertPrev)
        20 0 20 rowDeltas_alert).2 hs).mpr (Or.inl (by norm_num))⟩

/-- C2: a paired row with `|cpa_change - spend_change| < 5` and
`|ctr_change - spend_change| < 5` produces no AlertRecord, whatever the two
thresholds are; and the comparison is strict, so a row where either
difference is exactly 5 is not suppressed. -/
theorem C2_suppression_blocks_alerts (pr : Row × Row) (c t s : ℚ)
    (hd : rowDeltas pr = some (Val.num c, Val.num t, Val.num s)) :
    ((|c - s| < 5 ∧ |t - s| < 5) →
      ∀ cpaThreshold ctrThreshold : ℚ,
        (processRow cpaThreshold ctrThreshold pr).1 = []) ∧
    ((|c - s| = 5 ∨ |t - s| = 5) → suppressed c t s = false) := by
  constructor
  · rintro ⟨h1, h2⟩ cpaThreshold ctrThreshold
    have hs : suppressed c t s = true := by
      rw [suppressed, abs_sub_comm s c, abs_sub_comm s t]
      simp [h1, h2]
    have hsV : suppressedV (Val.num c) (Val.num t) (Val.num s) = true := by
      rw [suppressedV_num]; exact hs
    simp [processRow, hd, hsV]
  · rintro (h5 | h5) <;>
    · rw [suppressed, abs_sub_comm s c, abs_sub_comm s t]
      simp only [Bool.and_eq_false_imp, decide_eq_true_eq,
        decide_eq_false_iff_not, not_lt]
      intro h
      first
        | exact absurd h (by rw [h5]; exact lt_irrefl 5)
        | exact le_of_eq h5.symm

/-- C2 witness: the suppressed sample pair (deltas all +3) satisfies the
suppression band and yields no alert even at thresholds 1 and 1. -/
theorem C2_witness :
    |(3 : ℚ) - 3| < 5 ∧ |(3 : ℚ) - 3| < 5 ∧
    (processRow 1 1 (rowSuppCurr, rowSuppPrev)).1 = [] :=
  ⟨by norm_num, by norm_num,
    (C2_suppression_blocks_alerts (rowSuppCurr, rowSuppPrev) 3 3 3
        rowDeltas_supp).1 ⟨by norm_num, by norm_num⟩ 1 1⟩

/-- C3: a non-suppressed paired row with numeric metrics produces an
AlertRecord iff `|cpa_change| ≥ cpa_threshold` or `|ctr_change| ≥
ctr_threshold` (inclusive), and that record carries the three changes rounded
to two decimal places. -/
theorem C3_alert_iff_threshold (cpaThreshold ctrThreshold : ℚ)
    (pr : Row × Row) (c t s : ℚ)
    (hd : rowDeltas pr = some (Val.num c, Val.num t, Val.num s))
    (hns : suppressed c t s = false) :
    ((processRow cpaThreshold ctrThreshold pr).1 ≠ [] ↔
      (cpaThreshold ≤ |c| ∨ ctrThreshold ≤ |t|)) ∧
    ((cpaThreshold ≤ |c| ∨ ctrThreshold ≤ |t|) →
      (processRow cpaThreshold ctrThreshold pr).1 =
        [{ key := pr.1.key, campaign := pr.1.campaign.getD "",
           cpaChange := Val.num (round2 c), ctrChange := Val.num (round2 t),
           spendChange := Val.num (round2 s) }]) := by
  have hsV : suppressedV (Val.num c) (Val.num t) (Val.num s) = false := by
    rw [suppressedV_num]; exact hns
  by_cases hthr : cpaThreshold ≤ |c| ∨ ctrThreshold ≤ |t|
  · have hcond : ((Val.num c).abs.geB cpaThreshold ||
        (Val.num t).abs.geB ctrThreshold) = true := by
      simp only [Val.abs, Val.geB, ge_iff_le, Bool.or_eq_true,
        decide_eq_true_eq]
      exact hthr
    simp [processRow, hd, hsV, hcond, hthr, roundV2]
  · have hcond : ((Val.num c).abs.geB cpaThreshold ||
        (Val.num t).abs.geB ctrThreshold) = false := by
      simp only [Val.abs, Val.geB, ge_iff_le, Bool.or_eq_false_iff,
        decide_eq_false_iff_not]
      exact ⟨(not_or.mp hthr).1, (not_or.mp hthr).2⟩
    refine ⟨?_, fun h => absurd h hthr⟩
    simp [processRow, hd, hsV, hcond, hthr]

/-- C3 witness: the "Shoes" pair (deltas (+20, 0, +20)) is not suppressed,
meets the CPA threshold 15, and yields exactly the rounded alert record. -/
theorem C3_witness :
    suppressed 20 0 20 = false ∧ (15 : ℚ) ≤ |(20 : ℚ)| ∧
    (processRow 15 15 (rowAlertCurr, rowAlertPrev)).1 =
      [{ key := "Shoes", campaign := "", cpaChange := Val.num (round2 20),
         ctrChange := Val.num (round2 0), spendChange := Val.num (round2 20) }] :=
  ⟨by norm_num [suppressed], by norm_num,
    (C3_alert_iff_threshold 15 15 (rowAlertCurr, rowAlertPrev) 20 0 20
        rowDeltas_alert (by norm_num [suppressed])).2
      (Or.inl (by norm_num))⟩

/-- C4: the percentage-change computation is guarded — a zero previous value
yields exactly 0 (total, no division error), a nonzero previous value yields
`((curr - prev) / prev) * 100` — and the three per-row deltas apply it to
CPA, CTR and Cost respectively. -/
theorem C4_zero_prev_guard :
    (∀ curr : ℚ, pctChange curr 0 = 0) ∧
    (∀ curr prev : ℚ, prev ≠ 0 →
      pctChange curr prev = ((curr - prev) / prev) * 100) ∧
    (∀ pr : Row × Row, ∀ cpaC cpaP ctrC ctrP costC costP : ℚ,
      pr.1.cpa = some (Val.num cpaC) → pr.2.cpa = some (Val.num cpaP) →
      pr.1.ctr = some (Val.num ctrC) → pr.2.ctr = some (Val.num ctrP) →
      pr.1.cost = some (Val.num costC) → pr.2.cost = some (Val.num costP) →
      rowDeltas pr = some (Val.num (pctChange cpaC cpaP),
        Val.num (pctChange ctrC ctrP), Val.num (pctChange costC costP))) := by
  refine ⟨fun curr => by simp [pctChange],
    fun curr prev hp => by simp [pctChange, hp], ?_⟩
  intro pr cpaC cpaP ctrC ctrP costC costP h1 h2 h3 h4 h5 h6
  simp [rowDeltas, h1, h2, h3, h4, h5, h6, pctChangeF_num]

/-- C4 witness: a zero previous value gives change 0; CPA 10→12 gives +20%;
and the deltas of the "Shoes" pair are the three pointwise changes. -/
theorem C4_witness :
    pctChange 7 0 = 0 ∧ pctChange 12 10 = ((12 - 10) / 10) * 100 ∧
    rowDeltas (rowAlertCurr, rowAlertPrev) =
      some (Val.num (pctChange 12 10), Val.num (pctChange 2 2),
        Val.num (pctChange 120 100)) :=
  ⟨C4_zero_prev_guard.1 7, C4_zero_prev_guard.2.1 12 10 (by norm_num),
    C4_zero_prev_guard.2.2 (rowAlertCurr, rowAlertPrev) 12 10 2 2 120 100
      rfl rfl rfl rfl rfl rfl⟩

/-- C5: the ranker output is sorted by `|cpa_change|` descending (NaN keys
last), has length at most 5, breaks ties by original row order (pandas'
double reversal around a stable sort), and is empty — not an error — when no
movers exist. -/
theorem C5_ranker_sorted_stable (movers : List MoverRecord) :
    (topMovers movers).length ≤ 5 ∧
    ((topMovers movers).Pairwise fun a b => moverKeyW b ≤ moverKeyW a) ∧
    (∀ a b : MoverRecord, moverKeyW a = moverKeyW b →
      List.Sublist [a, b] movers →
      List.Sublist [a, b] (rankedMovers movers)) ∧
    (movers = [] → topMovers movers = []) := by
  have htrans : ∀ a b c : MoverRecord,
      moverLe a b → moverLe b c → moverLe a c := by
    intro a b c hab hbc
    simp only [moverLe, decide_eq_true_eq] at hab hbc ⊢
    exact le_trans hab hbc
  have htotal : ∀ a b : MoverRecord, moverLe a b || moverLe b a := by
    intro a b
    simp only [moverLe]
    rcases le_total a.cpaChange.absQ b.cpaChange.absQ with h | h <;> simp [h]
  have hranked : ((rankedMovers movers).Pairwise
      fun a b => moverKeyW b ≤ moverKeyW a) := by
    rw [rankedMovers, List.pairwise_append]
    refine ⟨?_, ?_, ?_⟩
    · rw [List.pairwise_reverse]
      have hs := List.sorted_mergeSort htrans htotal
        ((movers.filter fun m => m.cpaChange.isNum).reverse)
      refine hs.imp_of_mem ?_
      intro a b ha hb hab
      have ha' : a.cpaChange.isNum = true := by
        have h := List.mem_mergeSort.mp ha
        rw [List.mem_reverse] at h
        exact (List.mem_filter.mp h).2
      have hb' : b.cpaChange.isNum = true := by
        have h := List.mem_mergeSort.mp hb
        rw [List.mem_reverse] at h
        exact (List.mem_filter.mp h).2
      cases hca : a.cpaChange with
      | nan => rw [hca] at ha'; simp [Val.isNum] at ha'
      | num qa =>
        cases hcb : b.cpaChange with
        | nan => rw [hcb] at hb'; simp [Val.isNum] at hb'
        | num qb =>
          simp only [moverLe, Val.absQ, hca, hcb, decide_eq_true_eq] at hab
          simp only [moverKeyW, hca, hcb]
          exact_mod_cast hab
    · refine List.pairwise_of_forall_mem_list ?_
      intro a ha b hb
      have hb' := (List.mem_filter.mp hb).2
      cases hcb : b.cpaChange with
      | num q => rw [hcb] at hb'; simp [Val.isNum] at hb'
      | nan => simp [moverKeyW, hcb]
    · intro a ha b hb
      have hb' := (List.mem_filter.mp hb).2
      cases hcb : b.cpaChange with
      | num q => rw [hcb] at hb'; simp [Val.isNum] at hb'
      | nan => simp [moverKeyW, hcb]
  refine ⟨?_, ?_, ?_, fun h => by simp [topMovers, h]⟩
  · rw [topMovers]
    split
    · simp
    · simp
  · rw [topMovers]
    split
    · simp
    · exact List.Pairwise.sublist (List.take_sublist 5 _) hranked
  · intro a b htie hsub
    by_cases ha : a.cpaChange.isNum = true
    · have hb : b.cpaChange.isNum = true := by
        cases hca : a.cpaChange with
        | nan => rw [hca] at ha; simp [Val.isNum] at ha
        | num qa =>
          cases hcb : b.cpaChange with
          | num qb => simp [Val.isNum, hcb]
          | nan =>
            simp only [moverKeyW, hca, hcb] at htie
            exact absurd htie (WithBot.coe_ne_bot)
      have hfpair : List.Sublist [a, b]
          (movers.filter fun m => m.cpaChange.isNum) := by
        have h2 := hsub.filter (fun m => m.cpaChange.isNum)
        simpa [ha, hb] using h2
      have hrevp : List.Sublist [b, a]
          ((movers.filter fun m => m.cpaChange.isNum).reverse) := by
        have h3 := hfpair.reverse
        simpa using h3
      have hle : moverLe b a := by
        simp only [moverLe, decide_eq_true_eq]
        cases hca : a.cpaChange with
        | nan => rw [hca] at ha; simp [Val.isNum] at ha
        | num qa =>
          cases hcb : b.cpaChange with
          | nan => rw [hcb] at hb; simp [Val.isNum] at hb
          | num qb =>
            simp only [moverKeyW, hca, hcb] at htie
            have heq : |qa| = |qb| := by exact_mod_cast htie
            simp [Val.absQ, hca, hcb, heq]
      have hms : List.Sublist [b, a] (List.mergeSort
          ((movers.filter fun m => m.cpaChange.isNum).reverse) moverLe) :=
        List.pair_sublist_mergeSort htrans htotal hle hrevp
      have hfinal : List.Sublist [a, b] ((List.mergeSort
          ((movers.filter fun m => m.cpaChange.isNum).reverse)
            moverLe).reverse) := by
        have h4 := hms.reverse
        simpa using h4
      rw [rankedMovers]
      exact hfinal.trans (List.sublist_append_left _ _)
    · rw [Bool.not_eq_true] at ha
      have hb : b.cpaChange.isNum = false := by
        cases hca : a.cpaChange with
        | num qa => rw [hca] at ha; simp [Val.isNum] at ha
        | nan =>
          cases hcb : b.cpaChange with
          | nan => simp [Val.isNum, hcb]
          | num qb =>
            simp only [moverKeyW, hca, hcb] at htie
            exact absurd htie.symm (WithBot.coe_ne_bot)
      have hfpair : List.Sublist [a, b]
          (movers.filter fun m => !m.cpaChange.isNum) := by
        have h2 := hsub.filter (fun m => !m.cpaChange.isNum)
        simpa [ha, hb] using h2
      rw [rankedMovers]
      exact hfpair.trans (List.sublist_append_right _ _)

/-- C5 witness: two movers tied on `|cpa_change| = 10` keep their original
order through the ranker, and the empty mover set yields an empty ranking. -/
theorem C5_ranker_witness :
    moverKeyW tieA = moverKeyW tieB ∧ tieA ≠ tieB ∧
    List.Sublist [tieA, tieB] (rankedMovers [tieA, tieB]) ∧
    topMovers [tieA, tieB] = [tieA, tieB] ∧
    topMovers ([] : List MoverRecord) = [] := by
  have hfilt : ([tieA, tieB].filter fun m => m.cpaChange.isNum) =
      [tieA, tieB] := by
    simp [tieA, tieB, Val.isNum]
  have hfiltn : ([tieA, tieB].filter fun m => !m.cpaChange.isNum) = [] := by
    simp [tieA, tieB, Val.isNum]
  have hms : List.mergeSort [tieB, tieA] moverLe = [tieB, tieA] :=
    List.mergeSort_of_sorted
      (by norm_num [List.pairwise_cons, moverLe, tieA, tieB, Val.absQ])
  have hranked : rankedMovers [tieA, tieB] = [tieA, tieB] := by
    rw [rankedMovers, hfilt, hfiltn]
    have hrev : [tieA, tieB].reverse = [tieB, tieA] := rfl
    rw [hrev, hms]
    rfl
  refine ⟨rfl, ?_,
    (C5_ranker_sorted_stable [tieA, tieB]).2.2.1 tieA tieB rfl
      (List.Sublist.refl _),
    ?_, (C5_ranker_sorted_stable []).2.2.2 rfl⟩
  · intro h
    simp [tieA, tieB] at h
  · simp [topMovers, hranked]

/-- The inner join produces, for each key, the cross product of the two
sides: the paired rows with a given key number `m * n` where `m` and `n`
count that key in the two inputs. -/
theorem countP_mergeRows (curr prev : List Row) (k : String) :
    ((mergeRows curr prev).countP fun pr => pr.1.key == k) =
      ((curr.countP fun r => r.key == k) *
        (prev.countP fun r => r.key == k)) := by
  induction curr with
  | nil => simp [mergeRows]
  | cons c cs ih =>
    simp only [mergeRows, List.flatMap_cons, List.countP_append,
      List.countP_map] at ih ⊢
    by_cases hc : c.key = k
    · have hcomp : ((fun pr : Row × Row => pr.1.key == k) ∘ fun p => (c, p)) =
          fun _ => true := by
        funext p; simp [Function.comp, hc]
      have hfilt : (fun p : Row => p.key == c.key) = fun p : Row => p.key == k := by
        funext p; rw [hc]
      rw [hcomp, List.countP_true, hfilt, ← List.countP_eq_length_filter,
        List.countP_cons, ih]
      simp [hc]
      ring
    · have hcomp : ((fun pr : Row × Row => pr.1.key == k) ∘ fun p => (c, p)) =
          fun _ => false := by
        funext p; simp [Function.comp, hc]
      rw [hcomp, List.countP_false, List.countP_cons, ih]
      simp [hc]

/-- C6: the Row Aligner is an inner join on the grouping key — every paired
row pairs a current row with a previous row of equal key (so a key present in
only one period yields no paired row), and a key occurring `m` times in the
current period and `n` times in the previous period yields exactly `m * n`
paired rows. -/
theorem C6_inner_join_cross_product (curr prev : List Row) (k : String) :
    ((mergeRows curr prev).countP fun pr => pr.1.key == k) =
      ((curr.countP fun r => r.key == k) *
        (prev.countP fun r => r.key == k)) ∧
    ∀ pr ∈ mergeRows curr prev,
      pr.1 ∈ curr ∧ pr.2 ∈ prev ∧ pr.1.key = pr.2.key := by
  refine ⟨countP_mergeRows curr prev k, ?_⟩
  intro pr hpr
  simp only [mergeRows, List.mem_flatMap, List.mem_map, List.mem_filter] at hpr
  obtain ⟨c, hc, p, ⟨hp, hkey⟩, rfl⟩ := hpr
  exact ⟨hc, hp, (eq_of_beq hkey).symm⟩

/-- C6 witness: a key occurring twice in the current period and once in the
previous one yields exactly 2 paired rows, and a concrete paired row draws
its sides from the two inputs with equal keys. -/
theorem C6_witness :
    ((mergeRows [joinCurr1, joinCurr2] [joinPrev1]).countP
        fun pr => pr.1.key == "A") = 2 ∧
    (joinCurr1, joinPrev1).1 ∈ [joinCurr1, joinCurr2] ∧
    (joinCurr1, joinPrev1).2 ∈ [joinPrev1] ∧
    (joinCurr1, joinPrev1).1.key = (joinCurr1, joinPrev1).2.key := by
  constructor
  · rw [(C6_inner_join_cross_product [joinCurr1, joinCurr2] [joinPrev1] "A").1]
    simp [joinCurr1, joinCurr2, joinPrev1]
  · exact (C6_inner_join_cross_product [joinCurr1, joinCurr2] [joinPrev1] "A").2
      (joinCurr1, joinPrev1)
      (by simp [mergeRows, joinCurr1, joinCurr2, joinPrev1])

/-- Every row surviving `sortByConversionsDesc` came from its input. -/
theorem mem_sortByConversionsDesc {r : Row} {l : List Row}
    (h : r ∈ sortByConversionsDesc l) : r ∈ l := by
  simp only [sortByConversionsDesc, List.mem_append, List.mem_reverse,
    List.mem_mergeSort, List.mem_filter] at h
  rcases h with h | h <;> exact h.1

/-- Membership in the impression-floor filter. -/
theorem mem_qualifyingRows {r : Row} {l : List Row} :
    r ∈ qualifyingRows l ↔
      r ∈ l ∧ ∃ v, r.impressions = some v ∧ 100 ≤ v := by
  simp only [qualifyingRows, List.mem_filter]
  rcases himp : r.impressions with _ | v <;> simp [himp, ge_iff_le]

/-- The conversion-descending sort is sorted on `convKey`, missing cells
last. -/
theorem sortByConversionsDesc_sorted (l : List Row) :
    (sortByConversionsDesc l).Pairwise fun a b => convKey b ≤ convKey a := by
  rw [sortByConversionsDesc, List.pairwise_append]
  refine ⟨?_, ?_, ?_⟩
  · rw [List.pairwise_reverse]
    have htrans : ∀ a b c : Row, convLe a b → convLe b c → convLe a c := by
      intro a b c hab hbc
      simp only [convLe, decide_eq_true_eq] at hab hbc ⊢
      exact le_trans hab hbc
    have htotal : ∀ a b : Row, convLe a b || convLe b a := by
      intro a b
      simp only [convLe]
      rcases le_total (a.conversions.getD 0) (b.conversions.getD 0)
        with h | h <;> simp [h]
    have hsorted := List.sorted_mergeSort htrans htotal
      ((l.filter fun r => r.conversions.isSome).reverse)
    refine hsorted.imp_of_mem ?_
    intro a b ha hb hab
    have ha' : a.conversions.isSome := by
      have h := List.mem_mergeSort.mp ha
      rw [List.mem_reverse] at h
      exact (List.mem_filter.mp h).2
    have hb' : b.conversions.isSome := by
      have h := List.mem_mergeSort.mp hb
      rw [List.mem_reverse] at h
      exact (List.mem_filter.mp h).2
    obtain ⟨va, hva⟩ := Option.isSome_iff_exists.mp ha'
    obtain ⟨vb, hvb⟩ := Option.isSome_iff_exists.mp hb'
    simp only [convLe, hva, hvb, Option.getD_some, decide_eq_true_eq] at hab
    simp only [convKey, hva, hvb]
    exact_mod_cast hab
  · refine List.pairwise_of_forall_mem_list ?_
    intro a ha b hb
    have hb' := (List.mem_filter.mp hb).2
    simp [convKey, Option.isNone_iff_eq_none.mp hb']
  · intro a ha b hb
    have hb' := (List.mem_filter.mp hb).2
    simp [convKey, Option.isNone_iff_eq_none.mp hb']

/-- C7: every keyword in the top-5 or bottom-5 lists comes from a row of the
dataset with Impressions ≥ 100; the qualifying rows are sorted by
Conversions descending before the two ends are extracted; and when the
Keyword column is absent the result is the empty string, not an error. -/
theorem C7_keyword_insights (df : Dataset) :
    (∀ kw ∈ keywordTop5 df, ∃ r, r ∈ df.rows ∧
        (∃ v, r.impressions = some v ∧ 100 ≤ v) ∧ r.keyword = kw) ∧
    (∀ kw ∈ keywordBottom5 df, ∃ r, r ∈ df.rows ∧
        (∃ v, r.impressions = some v ∧ 100 ≤ v) ∧ r.keyword = kw) ∧
    ((sortByConversionsDesc (qualifyingRows df.rows)).Pairwise
      fun a b => convKey b ≤ convKey a) ∧
    (df.hasKeywordColumn = false → analyze_keywords df = "") := by
  refine ⟨?_, ?_, sortByConversionsDesc_sorted _, fun h => by
    simp [analyze_keywords, h]⟩
  · intro kw hkw
    by_cases hcol : df.hasKeywordColumn
    · simp only [keywordTop5, hcol, if_true, List.mem_map] at hkw
      obtain ⟨r, hr, hname⟩ := hkw
      have hr' : r ∈ sortByConversionsDesc (qualifyingRows df.rows) :=
        List.take_subset 5 _ hr
      have := mem_qualifyingRows.mp (mem_sortByConversionsDesc hr')
      exact ⟨r, this.1, this.2, hname⟩
    · simp [keywordTop5, hcol] at hkw
  · intro kw hkw
    by_cases hcol : df.hasKeywordColumn
    · simp only [keywordBottom5, hcol, if_true, List.mem_map] at hkw
      obtain ⟨r, hr, hname⟩ := hkw
      have hr' : r ∈ sortByConversionsDesc (qualifyingRows df.rows) :=
        List.drop_subset _ _ hr
      have := mem_qualifyingRows.mp (mem_sortByConversionsDesc hr')
      exact ⟨r, this.1, this.2, hname⟩
    · simp [keywordBottom5, hcol] at hkw

/-- C7 witness: "high" is in the top-5 of the sample dataset and indeed comes
from a row with Impressions ≥ 100; the column-free dataset yields "". -/
theorem C7_witness :
    "high" ∈ keywordTop5 kwDf ∧
    (∃ r, r ∈ kwDf.rows ∧
      (∃ v, r.impressions = some v ∧ 100 ≤ v) ∧ r.keyword = "high") ∧
    analyze_keywords kwDfNoCol = "" := by
  have hq : qualifyingRows [kwRowHigh, kwRowLow] = [kwRowHigh, kwRowLow] := by
    simp only [qualifyingRows, kwRowHigh, kwRowLow]
    norm_num
  have hfs : List.filter (fun r => r.conversions.isSome)
      [kwRowHigh, kwRowLow] = [kwRowHigh, kwRowLow] := by
    simp [kwRowHigh, kwRowLow]
  have hfn : List.filter (fun r => r.conversions.isNone)
      [kwRowHigh, kwRowLow] = [] := by
    simp [kwRowHigh, kwRowLow]
  have hms : List.mergeSort [kwRowLow, kwRowHigh] convLe =
      [kwRowLow, kwRowHigh] :=
    List.mergeSort_of_sorted
      (by norm_num [List.pairwise_cons, convLe, kwRowLow, kwRowHigh])
  have hsbd : sortByConversionsDesc [kwRowHigh, kwRowLow] =
      [kwRowHigh, kwRowLow] := by
    rw [sortByConversionsDesc, hfs, hfn]
    have hrev : [kwRowHigh, kwRowLow].reverse = [kwRowLow, kwRowHigh] := rfl
    rw [hrev, hms]
    rfl
  have hmem : "high" ∈ keywordTop5 kwDf := by
    have h5 : keywordTop5 kwDf =
        ((sortByConversionsDesc
          (qualifyingRows [kwRowHigh, kwRowLow])).take 5).map (·.keyword) := rfl
    rw [h5, hq, hsbd]
    simp [kwRowHigh]
  exact ⟨hmem, (C7_keyword_insights kwDf).1 "high" hmem,
    (C7_keyword_insights kwDfNoCol).2.2.2 rfl⟩

/-- C8: the pipeline is deterministic — classification under equal datasets
and equal thresholds yields equal alert and mover sequences (the embedded
`calculate_changes` is a pure function of its arguments). -/
theorem C8_deterministic (cpaThreshold ctrThreshold : ℚ) (curr prev : List Row) :
    calculate_changes cpaThreshold ctrThreshold curr prev =
      calculate_changes cpaThreshold ctrThreshold curr prev := rfl

/-- C9 counterexample: a paired row with a missing CPA cell is not skipped —
the NaN defeats both suppression comparisons, and the doubled CTR still
drives an AlertRecord and a MoverRecord, so a row with a missing metric
field can contribute records. -/
theorem C9_counterexample :
    rowNanCurr.cpa = some Val.nan ∧
    rowDeltas (rowNanCurr, rowNanPrev) =
      some (Val.nan, Val.num 100, Val.num 0) ∧
    suppressedV Val.nan (Val.num 100) (Val.num 0) = false ∧
    (processRow 15 15 (rowNanCurr, rowNanPrev)).1 ≠ [] ∧
    (processRow 15 15 (rowNanCurr, rowNanPrev)).2 ≠ [] := by
  have hd : rowDeltas (rowNanCurr, rowNanPrev) =
      some (Val.nan, Val.num 100, Val.num 0) := by
    have h1 : pctChangeF (some Val.nan) (some (Val.num 10)) = some Val.nan := by
      norm_num [pctChangeF]
    have h2 : pctChange (4 : ℚ) 2 = 100 := by norm_num [pctChange]
    have h3 : pctChange (100 : ℚ) 100 = 0 := by norm_num [pctChange]
    simp [rowDeltas, rowNanCurr, rowNanPrev, pctChangeF_num, h1, h2, h3]
  have hsup : suppressedV Val.nan (Val.num 100) (Val.num 0) = false := by
    simp [suppressedV, Val.sub, Val.abs, Val.ltB]
  have hcond : (Val.nan.abs.geB 15 || (Val.num 100).abs.geB 15) = true := by
    norm_num [Val.abs, Val.geB]
  have hmov : (Val.nan.abs.gtB 0.2 || (Val.num 100).abs.gtB 0.2) = true := by
    norm_num [Val.abs, Val.gtB]
  refine ⟨rfl, hd, hsup, ?_, ?_⟩ <;>
    simp [processRow, hd, hsup, hcond, hmov]

/-- C9 (amended): a paired row on which the metric computation raises (a
non-numeric cell reached by the arithmetic) contributes no alert and no
mover, and its presence anywhere in the merged sequence leaves the records
of all other rows unchanged; missing (NaN) cells, by contrast, do not raise
and such a row can still emit records via its other, numeric metric. -/
theorem C9_row_error_isolation (cpaThreshold ctrThreshold : ℚ)
    (pr : Row × Row) (hbad : rowDeltas pr = none) :
    processRow cpaThreshold ctrThreshold pr = ([], []) ∧
    ∀ l₁ l₂ : List (Row × Row),
      pairedAlerts cpaThreshold ctrThreshold (l₁ ++ pr :: l₂) =
        pairedAlerts cpaThreshold ctrThreshold (l₁ ++ l₂) ∧
      pairedMovers cpaThreshold ctrThreshold (l₁ ++ pr :: l₂) =
        pairedMovers cpaThreshold ctrThreshold (l₁ ++ l₂) := by
  have hzero : processRow cpaThreshold ctrThreshold pr = ([], []) := by
    simp [processRow, hbad]
  refine ⟨hzero, fun l₁ l₂ => ⟨?_, ?_⟩⟩ <;>
    simp [pairedAlerts, pairedMovers, hzero]

/-- C9 witness: a row with a non-numeric CPA cell contributes nothing, and
dropping it from between two sample rows changes neither output list. -/
theorem C9_witness :
    processRow 15 15 (rowBadCurr, rowAlertPrev) = ([], []) ∧
    pairedAlerts 15 15
        [(rowAlertCurr, rowAlertPrev), (rowBadCurr, rowAlertPrev)] =
      pairedAlerts 15 15 [(rowAlertCurr, rowAlertPrev)] := by
  have h := C9_row_error_isolation 15 15 (rowBadCurr, rowAlertPrev)
    (by norm_num [rowDeltas, rowBadCurr, rowAlertPrev, pctChangeF])
  exact ⟨h.1, ((h.2 [(rowAlertCurr, rowAlertPrev)] []).1)⟩

/-- C10: with both thresholds at least 5 (as the sliders enforce), every
paired row that produces an AlertRecord also produces a MoverRecord. -/
theorem C10_alerts_subset_movers (cpaThreshold ctrThreshold : ℚ)
    (pr : Row × Row) (hc : 5 ≤ cpaThreshold) (ht : 5 ≤ ctrThreshold)
    (ha : (processRow cpaThreshold ctrThreshold pr).1 ≠ []) :
    (processRow cpaThreshold ctrThreshold pr).2 ≠ [] := by
  rcases hdel : rowDeltas pr with _ | ⟨c, t, s⟩
  · simp [processRow, hdel] at ha
  · by_cases hsup : suppressedV c t s = true
    · simp [processRow, hdel, hsup] at ha
    · rw [Bool.not_eq_true] at hsup
      have hcond : (c.abs.geB cpaThreshold || t.abs.geB ctrThreshold) = true := by
        by_contra hno
        rw [Bool.not_eq_true, Bool.or_eq_false_iff] at hno
        exact ha (by simp [processRow, hdel, hsup, hno.1, hno.2])
      have hmov : (c.abs.gtB 0.2 || t.abs.gtB 0.2) = true := by
        rcases Bool.or_eq_true_iff.mp hcond with h | h
        · cases hcv : c with
          | nan => rw [hcv] at h; simp [Val.abs, Val.geB] at h
          | num q =>
            rw [hcv] at h
            simp only [Val.abs, Val.geB, decide_eq_true_eq, ge_iff_le] at h
            simp only [Val.abs, Val.gtB, Bool.or_eq_true, decide_eq_true_eq,
              gt_iff_lt]
            exact Or.inl (lt_of_lt_of_le (by norm_num) (le_trans hc h))
        · cases htv : t with
          | nan => rw [htv] at h; simp [Val.abs, Val.geB] at h
          | num q =>
            rw [htv] at h
            simp only [Val.abs, Val.geB, decide_eq_true_eq, ge_iff_le] at h
            simp only [Val.abs, Val.gtB, Bool.or_eq_true, decide_eq_true_eq,
              gt_iff_lt]
            exact Or.inr (lt_of_lt_of_le (by norm_num) (le_trans ht h))
      simp [processRow, hdel, hsup, hmov]

/-- C10 witness: at thresholds 15/15, the alerting "Shoes" pair also emits a
MoverRecord. -/
theorem C10_witness :
    (5 : ℚ) ≤ 15 ∧
    (processRow 15 15 (rowAlertCurr, rowAlertPrev)).2 ≠ [] := by
  have hsV : suppressedV (Val.num 20) (Val.num 0) (Val.num 20) = false := by
    rw [suppressedV_num]; norm_num [suppressed]
  have hcond : ((Val.num 20).abs.geB 15 || (Val.num 0).abs.geB 15) = true := by
    norm_num [Val.abs, Val.geB]
  exact ⟨by norm_num,
    C10_alerts_subset_movers 15 15 (rowAlertCurr, rowAlertPrev)
      (by norm_num) (by norm_num)
      (by simp [processRow, rowDeltas_alert, hsV, hcond])⟩

end CampaignOptimizer
